import Mathlib

/-!
Verification development for the greentic-mcp execution engine.

The definitions below are a shallow embedding of the Rust sources:
  crates/mcp-exec/src/verify.rs   (artifact verification)
  crates/mcp-exec/src/resolve.rs  (local artifact resolution)
  crates/mcp-exec/src/runner.rs   (wasm runner, host capabilities, mock fallback)
  greentic-mcp/src/lib.rs         (retry orchestrator)
  greentic-mcp/src/retry.rs       (exponential backoff with jitter)

Modelling conventions:
  - machine integers are Nat with explicit `% 2 ^ w` where overflow matters;
  - Durations are modelled as whole nanoseconds (Nat); `as_millis` is `/ 1000000`;
  - JSON values (serde_json::Value) are the inductive `Json` below; numbers are
    carried opaquely since no claim inspects numeric semantics;
  - external effects (the filesystem, the JSON parser of the serde crate, the
    reqwest network client, the wasmtime sandbox) enter as explicit function
    parameters ("oracles"); everything the repository itself computes is
    embedded concretely;
  - the byte strings handled by the code are `List Nat` (each entry one byte).
-/

/-- serde_json::Value.  Numbers are opaque (no claim inspects them); objects are
association lists looked up by first match, mirroring map lookup on the unique
keys serde_json produces. -/
inductive Json where
  | null : Json
  | bool (b : Bool) : Json
  | num (numerator : Int) (denominator : Nat) : Json
  | str (s : String) : Json
  | arr (elems : List Json) : Json
  | obj (fields : List (String × Json)) : Json

/-- Value::get(key): field lookup on objects, None on every other variant. -/
def Json.get : Json → String → Option Json
  | .obj fields, key => fields.lookup key
  | _, _ => none

/-- Value::as_bool. -/
def Json.asBool : Json → Option Bool
  | .bool b => some b
  | _ => none

/-- Value::as_object, returning the field list. -/
def Json.asObject : Json → Option (List (String × Json))
  | .obj fields => some fields
  | _ => none

/-- ResolveError from crates/mcp-exec/src/error.rs. -/
inductive ResolveError where
  | notFound : ResolveError
  | ioErr : ResolveError
  | ociNotImplemented : ResolveError
  | wargNotImplemented : ResolveError
deriving DecidableEq

/-- VerificationError from crates/mcp-exec/src/error.rs. -/
inductive VerificationError where
  | digestMismatch (expected actual : String) : VerificationError
  | unsignedRejected : VerificationError
deriving DecidableEq

/-- RunnerError from crates/mcp-exec/src/error.rs, together with the
`Internal` and `ActionNotFound` variants that runner.rs constructs (their
declaration is in the spec's error taxonomy; error.rs in the snapshot predates
them).  `timeout` carries the elapsed duration in nanoseconds; `wasmtime` is
the sandbox (compile/link/instantiate/trap) error with its message. -/
inductive RunnerError where
  | timeout (elapsedNanos : Nat) : RunnerError
  | wasmtime (msg : String) : RunnerError
  | serde (msg : String) : RunnerError
  | notImplemented : RunnerError
  | internal (msg : String) : RunnerError
  | actionNotFound (action : String) : RunnerError

/-- ExecError from crates/mcp-exec/src/error.rs.  The `tool` variant is the
tool-reported error that greentic-mcp/src/lib.rs constructs and matches on
(fields per the spec's error taxonomy section 4.7). -/
inductive ExecError where
  | resolve (component : String) (source : ResolveError) : ExecError
  | verification (component : String) (source : VerificationError) : ExecError
  | runner (component : String) (source : RunnerError) : ExecError
  | tool (component action code : String) (payload : Json) : ExecError

/-- ArtifactOrigin from crates/mcp-exec/src/resolve.rs; paths are strings. -/
inductive ArtifactOrigin where
  | Local (path : String) : ArtifactOrigin
  | Oci (reference : String) : ArtifactOrigin
  | Warg (pkg : String) (reference : Option String) : ArtifactOrigin
deriving DecidableEq

/-- ResolvedArtifact from crates/mcp-exec/src/resolve.rs. -/
structure ResolvedArtifact where
  origin : ArtifactOrigin
  bytes : List Nat
  digest : String
deriving DecidableEq

/-- VerifyPolicy from crates/mcp-exec/src/config.rs; the HashMap of required
digests is an association list (at most one entry per key), looked up by key
equality exactly as HashMap::get. -/
structure VerifyPolicy where
  allow_unverified : Bool
  required_digests : List (String × String)
  trusted_signers : List String

/-- VerifiedArtifact from crates/mcp-exec/src/verify.rs. -/
structure VerifiedArtifact where
  resolved : ResolvedArtifact
  verified_digest : Option String
  verified_signer : Option String
deriving DecidableEq

/-- verify from crates/mcp-exec/src/verify.rs. -/
def verify (component : String) (artifact : ResolvedArtifact) (policy : VerifyPolicy) :
    Except VerificationError VerifiedArtifact :=
  match policy.required_digests.lookup component with
  | some expected_digest =>
      if artifact.digest ≠ expected_digest then
        .error (.digestMismatch expected_digest artifact.digest)
      else
        .ok { resolved := artifact
              verified_digest := some artifact.digest
              verified_signer := none }
  | none =>
      if policy.allow_unverified = false then
        .error .unsignedRejected
      else
        .ok { resolved := artifact
              verified_digest := some artifact.digest
              verified_signer := none }

/-- ASCII-lowercase of one character, for the claim-side case-insensitive
comparison (str::eq_ignore_ascii_case semantics). -/
def asciiLowerChar (c : Char) : Char :=
  if 65 ≤ c.toNat ∧ c.toNat ≤ 90 then Char.ofNat (c.toNat + 32) else c

/-- Claim-side comparator: byte-for-byte ASCII-case-insensitive string
equality.  This follows the claim's words, for comparison with the source's
exact equality; `verify` itself never uses it. -/
def eqIgnoreAsciiCase (a b : String) : Bool :=
  a.data.map asciiLowerChar = b.data.map asciiLowerChar

/-- Claim C1, counterexample: the claim says verification succeeds iff the
artifact digest matches the required digest case-insensitively.  With required
digest "AB" and artifact digest "ab" the two match case-insensitively, yet
`verify` (which compares with exact string inequality) rejects with
DigestMismatch.  So the claim as stated is false. -/
theorem verify_caseInsensitive_claim_false :
    eqIgnoreAsciiCase "ab" "AB" = true ∧
    verify "c" { origin := .Local "p", bytes := [], digest := "ab" }
        { allow_unverified := false
          required_digests := [("c", "AB")]
          trusted_signers := [] } =
      .error (.digestMismatch "AB" "ab") := by
  exact ⟨rfl, rfl⟩

/-- Claim C1 (amended): for every policy entry `required_digests[name] = d` and
every resolved artifact, verification succeeds iff `r.digest` equals `d`
exactly (byte-for-byte, case-SENSITIVELY); on mismatch it returns
DigestMismatch with expected = d and actual = r.digest. -/
theorem verify_requiredDigest_exact (name : String) (r : ResolvedArtifact)
    (p : VerifyPolicy) (d : String)
    (hd : p.required_digests.lookup name = some d) :
    ((verify name r p).isOk = true ↔ r.digest = d) ∧
    (r.digest ≠ d → verify name r p = .error (.digestMismatch d r.digest)) := by
  unfold verify
  rw [hd]
  constructor
  · by_cases h : r.digest = d
    · simp [h, Except.isOk, Except.toBool]
    · simp [h, Except.isOk, Except.toBool]
  · intro h
    simp [h]

/-- Witness for verify_requiredDigest_exact at a concrete input. -/
theorem verify_requiredDigest_exact_witness :
    ((verify "c" { origin := .Local "p", bytes := [], digest := "ab" }
        { allow_unverified := false
          required_digests := [("c", "ab")]
          trusted_signers := [] }).isOk = true ↔ "ab" = "ab") ∧
    ("ab" ≠ "ab" →
      verify "c" { origin := .Local "p", bytes := [], digest := "ab" }
          { allow_unverified := false
            required_digests := [("c", "ab")]
            trusted_signers := [] } = .error (.digestMismatch "ab" "ab")) :=
  verify_requiredDigest_exact "c"
    { origin := .Local "p", bytes := [], digest := "ab" }
    { allow_unverified := false
      required_digests := [("c", "ab")]
      trusted_signers := [] } "ab" rfl

/-- Claim C2: verification fails with UnsignedRejected iff the policy has no
required digest entry for the component and allow_unverified is false; with no
entry and allow_unverified true, verification accepts. -/
theorem verify_unsignedRejected_iff (name : String) (r : ResolvedArtifact)
    (p : VerifyPolicy) :
    (verify name r p = .error .unsignedRejected ↔
      (p.required_digests.lookup name = none ∧ p.allow_unverified = false)) ∧
    (p.required_digests.lookup name = none → p.allow_unverified = true →
      (verify name r p).isOk = true) := by
  constructor
  · unfold verify
    cases h : p.required_digests.lookup name with
    | some d =>
        by_cases hdig : r.digest = d
        · simp [hdig]
        · simp [hdig]
    | none =>
        cases h2 : p.allow_unverified with
        | false => simp
        | true => simp
  · intro h1 h2
    unfold verify
    rw [h1, h2]
    simp [Except.isOk, Except.toBool]

/-- Witness for verify_unsignedRejected_iff at a concrete input. -/
theorem verify_unsignedRejected_iff_witness :
    (verify "c" { origin := .Local "p", bytes := [], digest := "ab" }
        { allow_unverified := false
          required_digests := []
          trusted_signers := [] } = .error .unsignedRejected ↔
      (([] : List (String × String)).lookup "c" = none ∧ false = false)) ∧
    (([] : List (String × String)).lookup "c" = none → false = true →
      (verify "c" { origin := .Local "p", bytes := [], digest := "ab" }
          { allow_unverified := false
            required_digests := []
            trusted_signers := [] }).isOk = true) :=
  verify_unsignedRejected_iff "c"
    { origin := .Local "p", bytes := [], digest := "ab" }
    { allow_unverified := false
      required_digests := []
      trusted_signers := [] }

/-- Claim C10: whenever verify succeeds, the VerifiedArtifact it returns has
verified_digest = some (artifact digest) and verified_signer = none, even on
the allow_unverified acceptance path. -/
theorem verify_ok_fields (name : String) (r : ResolvedArtifact) (p : VerifyPolicy)
    (va : VerifiedArtifact) (h : verify name r p = .ok va) :
    va.verified_digest = some r.digest ∧ va.verified_signer = none := by
  unfold verify at h
  cases hl : p.required_digests.lookup name with
  | some d =>
      rw [hl] at h
      by_cases hdig : r.digest = d
      · simp [hdig] at h
        rw [← h]
        subst hdig
        exact ⟨rfl, rfl⟩
      · simp [hdig] at h
  | none =>
      rw [hl] at h
      cases ha : p.allow_unverified with
      | false => simp [ha] at h
      | true =>
          simp [ha] at h
          rw [← h]
          exact ⟨rfl, rfl⟩

/-- Witness for verify_ok_fields at a concrete input. -/
theorem verify_ok_fields_witness :
    ({ resolved := { origin := .Local "p", bytes := [], digest := "ab" }
       verified_digest := some "ab"
       verified_signer := none : VerifiedArtifact }).verified_digest =
        some ({ origin := .Local "p", bytes := [], digest := "ab" :
            ResolvedArtifact }).digest ∧
    ({ resolved := { origin := .Local "p", bytes := [], digest := "ab" }
       verified_digest := some "ab"
       verified_signer := none : VerifiedArtifact }).verified_signer = none :=
  verify_ok_fields "c" { origin := .Local "p", bytes := [], digest := "ab" }
    { allow_unverified := true, required_digests := [], trusted_signers := [] }
    { resolved := { origin := .Local "p", bytes := [], digest := "ab" }
      verified_digest := some "ab"
      verified_signer := none } rfl

/-- str::ends_with, computed on the character lists (UTF-8 suffix equality). -/
def strEndsWith (s suffix : String) : Bool :=
  decide (s.data.drop (s.data.length - suffix.data.length) = suffix.data)

/-- Index of the last occurrence of a dot in a character list (Rust
memchr from the right inside split_file_at_dot). -/
def lastDotIdx (cs : List Char) : Option Nat :=
  cs.enum.foldl (fun acc p => if p.2 = '.' then some p.1 else acc) none

/-- Rust std::path split_file_at_dot on a file name with no path separator:
yields (file_stem, extension).  ".." has no extension; a last dot at index 0
(hidden files like ".gitignore") yields no extension; otherwise the name is
split at the last dot. -/
def splitFileAtDot (s : String) : String × Option String :=
  if s = ".." then (s, none)
  else
    match lastDotIdx s.data with
    | none => (s, none)
    | some 0 => (s, none)
    | some i => (⟨s.data.take i⟩, some ⟨s.data.drop (i + 1)⟩)

/-- Rust PathBuf::set_extension on a separator-free file name: replace the
extension after the file stem (an empty new extension just drops the old
one). -/
def setExtension (s : String) (ext : String) : String :=
  let stem := (splitFileAtDot s).1
  if ext = "" then stem else stem ++ "." ++ ext

/-- candidate_file_names from crates/mcp-exec/src/resolve.rs: the verbatim
name; then, when an expected extension is configured and the name's extension
is not already equal to it, the name with its extension REPLACED by the
expected one (PathBuf::set_extension); then `<name>.wasm` unless the name
already ends with ".wasm"; then `<name>.component.wasm` unless it already ends
with ".component.wasm". -/
def candidateFileNames (component : String) (extension : Option String) : List String :=
  let base := component
  let names1 := [base]
  let names2 :=
    match extension with
    | none => names1
    | some ext =>
        let matchesExtension := (splitFileAtDot base).2 = some ext
        if matchesExtension then names1 else names1 ++ [setExtension base ext]
  let names3 :=
    if strEndsWith component ".wasm" then names2 else names2 ++ [component ++ ".wasm"]
  if strEndsWith component ".component.wasm" then names3
  else names3 ++ [component ++ ".component.wasm"]

/-- Claim-side candidate list, modelled from the claim's words for comparison
with `candidateFileNames`: (a) the name verbatim, (b) the name with the
expected extension APPENDED iff the name does not already end with it,
(c) `<name>.wasm`, (d) `<name>.component.wasm`. -/
def claimCandidateFileNames (name : String) (extension : Option String) : List String :=
  [name] ++
    (match extension with
     | none => []
     | some ext => if strEndsWith name ("." ++ ext) then [] else [name ++ "." ++ ext]) ++
    [name ++ ".wasm", name ++ ".component.wasm"]

/-- Claim C8, counterexample: for component "echo.component" with the default
expected extension "wasm", the code's second candidate is "echo.wasm"
(set_extension REPLACES the ".component" extension), while the claim's
appended candidate is "echo.component.wasm"; the two candidate lists differ.
So the claim's candidate order is false of the code. -/
theorem candidateFileNames_claim_false :
    candidateFileNames "echo.component" (some "wasm") =
      ["echo.component", "echo.wasm", "echo.component.wasm",
        "echo.component.component.wasm"] ∧
    claimCandidateFileNames "echo.component" (some "wasm") =
      ["echo.component", "echo.component.wasm", "echo.component.wasm",
        "echo.component.component.wasm"] ∧
    candidateFileNames "echo.component" (some "wasm") ≠
      claimCandidateFileNames "echo.component" (some "wasm") := by
  refine ⟨by decide, by decide, by decide⟩

/-- 32-bit truncation. -/
def w32 (x : Nat) : Nat := x % 4294967296

/-- 32-bit rotate right (operand below 2 ^ 32). -/
def rotr32 (n x : Nat) : Nat := w32 ((x >>> n) ||| (x <<< (32 - n)))

/-- SHA-256 big Sigma0. -/
def bSig0 (x : Nat) : Nat := rotr32 2 x ^^^ rotr32 13 x ^^^ rotr32 22 x

/-- SHA-256 big Sigma1. -/
def bSig1 (x : Nat) : Nat := rotr32 6 x ^^^ rotr32 11 x ^^^ rotr32 25 x

/-- SHA-256 small sigma0. -/
def sSig0 (x : Nat) : Nat := rotr32 7 x ^^^ rotr32 18 x ^^^ (x >>> 3)

/-- SHA-256 small sigma1. -/
def sSig1 (x : Nat) : Nat := rotr32 17 x ^^^ rotr32 19 x ^^^ (x >>> 10)

/-- SHA-256 Ch. -/
def sha2Ch (x y z : Nat) : Nat := (x &&& y) ^^^ ((x ^^^ 4294967295) &&& z)

/-- SHA-256 Maj. -/
def sha2Maj (x y z : Nat) : Nat := (x &&& y) ^^^ (x &&& z) ^^^ (y &&& z)

/-- Big-endian byte expansion of x into n bytes. -/
def toBytesBE (n x : Nat) : List Nat :=
  (List.range n).map (fun i => (x >>> (8 * (n - 1 - i))) % 256)

/-- SHA-256 message padding: 0x80, zeros to 56 mod 64, 8-byte big-endian bit
length. -/
def sha256Pad (msg : List Nat) : List Nat :=
  let bitLen := msg.length * 8
  let m := (msg.length + 1) % 64
  let k := (120 - m) % 64
  msg ++ 128 :: (List.replicate k 0 ++ toBytesBE 8 bitLen)

/-- Split a byte list into 64-byte chunks. -/
def chunks64 (l : List Nat) : List (List Nat) :=
  if h : l = [] then []
  else l.take 64 :: chunks64 (l.drop 64)
termination_by l.length
decreasing_by
  simp only [List.length_drop]
  have : l.length ≠ 0 := fun hz => h (List.eq_nil_of_length_eq_zero hz)
  omega

/-- The big-endian 32-bit word starting at byte offset 4 * i of a block. -/
def wordAt (block : List Nat) (i : Nat) : Nat :=
  (block.getD (4 * i) 0 % 256) * 16777216 + (block.getD (4 * i + 1) 0 % 256) * 65536 +
    (block.getD (4 * i + 2) 0 % 256) * 256 + (block.getD (4 * i + 3) 0 % 256)

/-- The 64 SHA-256 round constants. -/
def sha256K : List Nat :=
  [1116352408, 1899447441, 3049323471, 3921009573, 961987163,
   1508970993, 2453635748, 2870763221, 3624381080, 310598401,
   607225278, 1426881987, 1925078388, 2162078206, 2614888103,
   3248222580, 3835390401, 4022224774, 264347078, 604807628,
   770255983, 1249150122, 1555081692, 1996064986, 2554220882,
   2821834349, 2952996808, 3210313671, 3336571891, 3584528711,
   113926993, 338241895, 666307205, 773529912, 1294757372,
   1396182291, 1695183700, 1986661051, 2177026350, 2456956037,
   2730485921, 2820302411, 3259730800, 3345764771, 3516065817,
   3600352804, 4094571909, 275423344, 430227734, 506948616,
   659060556, 883997877, 958139571, 1322822218, 1537002063,
   1747873779, 1955562222, 2024104815, 2227730452, 2361852424,
   2428436474, 2756734187, 3204031479, 3329325298]

/-- The SHA-256 message schedule of one 64-byte block (64 words). -/
def sha256Schedule (block : List Nat) : List Nat :=
  let w16 := (List.range 16).map (wordAt block)
  (List.range 48).foldl
    (fun w _ =>
      let t := w.length
      w ++ [w32 (sSig1 (w.getD (t - 2) 0) + w.getD (t - 7) 0 +
        sSig0 (w.getD (t - 15) 0) + w.getD (t - 16) 0)])
    w16

/-- The eight 32-bit words of a SHA-256 state. -/
structure Hash8 where
  a : Nat
  b : Nat
  c : Nat
  d : Nat
  e : Nat
  f : Nat
  g : Nat
  h : Nat

/-- SHA-256 initial hash value. -/
def sha256Init : Hash8 :=
  ⟨1779033703, 3144134277, 1013904242, 2773480762,
   1359893119, 2600822924, 528734635, 1541459225⟩

/-- One SHA-256 compression round with round constant and schedule word. -/
def sha256Round (st : Hash8) (kw : Nat × Nat) : Hash8 :=
  let t1 := w32 (st.h + bSig1 st.e + sha2Ch st.e st.f st.g + kw.1 + kw.2)
  let t2 := w32 (bSig0 st.a + sha2Maj st.a st.b st.c)
  ⟨w32 (t1 + t2), st.a, st.b, st.c, w32 (st.d + t1), st.e, st.f, st.g⟩

/-- Process one 64-byte block. -/
def sha256Block (H : Hash8) (block : List Nat) : Hash8 :=
  let w := sha256Schedule block
  let st := (sha256K.zip w).foldl sha256Round H
  ⟨w32 (H.a + st.a), w32 (H.b + st.b), w32 (H.c + st.c), w32 (H.d + st.d),
   w32 (H.e + st.e), w32 (H.f + st.f), w32 (H.g + st.g), w32 (H.h + st.h)⟩

/-- SHA-256 of a byte list, as 32 bytes (the sha2 crate used by
compute_digest). -/
def sha256 (msg : List Nat) : List Nat :=
  let fin := (chunks64 (sha256Pad msg)).foldl sha256Block sha256Init
  (([fin.a, fin.b, fin.c, fin.d, fin.e, fin.f, fin.g, fin.h]).map (toBytesBE 4)).join

/-- Lowercase hex digit for a nibble. -/
def hexDigitChar (n : Nat) : Char :=
  if n < 10 then Char.ofNat (48 + n) else Char.ofNat (87 + n)

/-- hex::encode: lowercase hex of a byte list. -/
def hexEncode (bytes : List Nat) : String :=
  ⟨(bytes.map (fun b => [hexDigitChar (b % 256 / 16), hexDigitChar (b % 16)])).join⟩

/-- compute_digest from crates/mcp-exec/src/resolve.rs: lowercase hex SHA-256
of the bytes. -/
def computeDigest (bytes : List Nat) : String := hexEncode (sha256 bytes)

/-- LocalStore from crates/mcp-exec/src/config.rs (paths as strings). -/
structure LocalStore where
  search_paths : List String
  expected_extension : Option String

/-- PathBuf::join of a root and a file name (roots without a trailing
separator). -/
def joinPath (root name : String) : String := root ++ "/" ++ name

/-- The filesystem as seen by resolve_local: a path is either a regular
readable file with some bytes, or not a regular file. -/
def FsOracle : Type := String → Option (List Nat)

/-- Inner loop of resolve_local: try each candidate name under one root,
first regular file wins. -/
def scanCandidates (fs : FsOracle) (root : String) : List String → Option (String × List Nat)
  | [] => none
  | c :: rest =>
      match fs (joinPath root c) with
      | some bytes => some (joinPath root c, bytes)
      | none => scanCandidates fs root rest

/-- Outer loop of resolve_local: scan the search roots in declared order. -/
def scanRoots (fs : FsOracle) (cands : List String) : List String → Option (String × List Nat)
  | [] => none
  | r :: rest =>
      match scanCandidates fs r cands with
      | some hit => some hit
      | none => scanRoots fs cands rest

/-- resolve_local from crates/mcp-exec/src/resolve.rs. -/
def resolveLocal (component : String) (store : LocalStore) (fs : FsOracle) :
    Except ResolveError ResolvedArtifact :=
  let candidateNames := candidateFileNames component store.expected_extension
  match scanRoots fs candidateNames store.search_paths with
  | some (path, bytes) =>
      .ok { origin := .Local path, bytes := bytes, digest := computeDigest bytes }
  | none => .error .notFound

/-- ToolStore from crates/mcp-exec/src/config.rs. -/
inductive ToolStore where
  | Local (store : LocalStore) : ToolStore
  | Oci (registry repository : String) (reference : Option String) : ToolStore
  | Warg (server pkg : String) (reference : Option String) : ToolStore

/-- resolve from crates/mcp-exec/src/resolve.rs. -/
def resolve (component : String) (store : ToolStore) (fs : FsOracle) :
    Except ResolveError ResolvedArtifact :=
  match store with
  | .Local l => resolveLocal component l fs
  | .Oci _ _ _ => .error .ociNotImplemented
  | .Warg _ _ _ => .error .wargNotImplemented

theorem scanCandidates_eq_findSome (fs : FsOracle) (root : String) (cands : List String) :
    scanCandidates fs root cands =
      (cands.map (joinPath root)).findSome? (fun p => (fs p).map (fun b => (p, b))) := by
  induction cands with
  | nil => rfl
  | cons c rest ih =>
      simp only [scanCandidates, List.map_cons, List.findSome?_cons]
      cases fs (joinPath root c) with
      | some b => simp
      | none => simpa using ih

theorem scanRoots_eq_findSome (fs : FsOracle) (cands : List String) (roots : List String) :
    scanRoots fs cands roots =
      (roots.map (fun r => (cands.map (joinPath r)))).join.findSome?
        (fun p => (fs p).map (fun b => (p, b))) := by
  induction roots with
  | nil => rfl
  | cons r rest ih =>
      simp only [scanRoots, List.map_cons, List.join_cons, List.findSome?_append]
      rw [scanCandidates_eq_findSome]
      cases h : (cands.map (joinPath r)).findSome? (fun p => (fs p).map (fun b => (p, b))) with
      | some hit => simp [h]
      | none => simpa [h] using ih

/-- Claim C8 (amended): for every separator-free component name, resolve over a
Local store scans the flattened root-major list of candidate paths - the roots
in declared order, and within each root the candidates of
`candidateFileNames` in order: (a) the name verbatim, (b) the name with its
extension REPLACED by the expected extension (default "wasm") iff its
extension is not already exactly that extension, (c) `<name>.wasm` iff the
name does not already end with ".wasm", (d) `<name>.component.wasm` iff the
name does not already end with ".component.wasm" - and the first path that is
a regular file wins, its bytes are read fully, and the returned artifact
carries the lowercase hex SHA-256 of those bytes. -/
theorem resolveLocal_first_hit (component : String) (store : LocalStore) (fs : FsOracle)
    (hsep : component.data.contains '/' = false) :
    resolveLocal component store fs =
      (((store.search_paths.map (fun r =>
            (candidateFileNames component store.expected_extension).map (joinPath r))).join.findSome?
          (fun p => (fs p).map (fun b => (p, b)))).map
        (fun hit => Except.ok { origin := ArtifactOrigin.Local hit.1
                                bytes := hit.2
                                digest := hexEncode (sha256 hit.2) })).getD
        (.error .notFound) := by
  unfold resolveLocal
  dsimp only
  rw [scanRoots_eq_findSome]
  cases h : (store.search_paths.map (fun r =>
      (candidateFileNames component store.expected_extension).map (joinPath r))).join.findSome?
      (fun p => (fs p).map (fun b => (p, b))) with
  | none => simp [h]
  | some hit => simp [h, computeDigest]

/-- Witness for resolveLocal_first_hit at a concrete input (an empty
filesystem, where resolution fails with NotFound on both sides). -/
theorem resolveLocal_first_hit_witness :
    resolveLocal "echo.component"
        { search_paths := ["tools"], expected_extension := some "wasm" }
        (fun _ => none) =
      ((((["tools"] : List String).map (fun r =>
            (candidateFileNames "echo.component" (some "wasm")).map (joinPath r))).join.findSome?
          (fun p => ((fun _ => none : FsOracle) p).map (fun b => (p, b)))).map
        (fun hit => Except.ok { origin := ArtifactOrigin.Local hit.1
                                bytes := hit.2
                                digest := hexEncode (sha256 hit.2) })).getD
        (.error .notFound) :=
  resolveLocal_first_hit "echo.component"
    { search_paths := ["tools"], expected_extension := some "wasm" }
    (fun _ => none) rfl

/-- try_mock_json from crates/mcp-exec/src/runner.rs.  `parseBytes` is the
external UTF-8 decode plus serde_json parse (both `.ok()?` in the source, so
failures collapse to none).  Returns none when the bytes are not a mock
artifact, otherwise the short-circuit result. -/
def tryMockJson (parseBytes : List Nat → Option Json) (bytes : List Nat)
    (action : String) : Option (Except RunnerError Json) :=
  match parseBytes bytes with
  | none => none
  | some root =>
      if ((root.get "_mock_mcp_exec").bind Json.asBool).getD false then
        match (root.get "responses").bind Json.asObject with
        | none => none
        | some responses =>
            match responses.lookup action with
            | some value => some (.ok value)
            | none => some (.error (.actionNotFound action))
      else none

/-- Modelled from the claim's words (the spec's mock short-circuit paragraph),
for comparison with the source's compile-failure path: if the bytes parse as
UTF-8 JSON whose root is an object with "_mock_mcp_exec": true and a
"responses" object, return responses[action] verbatim when present and
ActionNotFound otherwise; in every other case surface the original sandbox
error. -/
def specMockFallback (parseBytes : List Nat → Option Json) (bytes : List Nat)
    (action : String) (origErr : String) : Except RunnerError Json :=
  match parseBytes bytes with
  | some (.obj fields) =>
      match fields.lookup "_mock_mcp_exec" with
      | some (.bool true) =>
          match fields.lookup "responses" with
          | some (.obj responses) =>
              match responses.lookup action with
              | some value => .ok value
              | none => .error (.actionNotFound action)
          | _ => .error (.wasmtime origErr)
      | _ => .error (.wasmtime origErr)
  | _ => .error (.wasmtime origErr)

/-- The per-invocation sandbox outcomes of run_sync that come from wasmtime
(external to the repository): whether Component::from_binary succeeded (with
the error message otherwise), whether linking/instantiation/export lookup
succeeded, what the guest exec call produced, and the measured wallclock
duration of the exec call in nanoseconds. -/
structure SandboxRun where
  compile : Except String Unit
  instantiate : Except RunnerError Unit
  execCall : Except RunnerError String
  measuredNanos : Nat

/-- run_sync from crates/mcp-exec/src/runner.rs, over the sandbox oracle:
on compile failure try the mock-JSON short-circuit before surfacing the
sandbox error; otherwise link, instantiate, call exec, enforce the inner
wallclock check, and decode the returned string as JSON (`parseStr` is
serde_json::from_str). -/
def runSync (parseBytes : List Nat → Option Json) (parseStr : String → Except String Json)
    (bytes : List Nat) (action : String) (wallclockTimeoutNanos : Nat)
    (sb : SandboxRun) : Except RunnerError Json :=
  match sb.compile with
  | .error err =>
      match tryMockJson parseBytes bytes action with
      | some result => result
      | none => .error (.wasmtime err)
  | .ok _ =>
      match sb.instantiate with
      | .error e => .error e
      | .ok _ =>
          match sb.execCall with
          | .error e => .error e
          | .ok rawResponse =>
              if sb.measuredNanos > wallclockTimeoutNanos then
                .error (.timeout sb.measuredNanos)
              else
                match parseStr rawResponse with
                | .ok value => .ok value
                | .error e => .error (.serde e)

/-- Claim C3: on compile failure the Runner behaves exactly as the mock
short-circuit describes - parse the bytes as UTF-8 JSON; if the root is an
object with "_mock_mcp_exec": true and a "responses" object, return
responses[action] verbatim when present and ActionNotFound
otherwise; if the bytes do not match this shape,
surface the original sandbox error. -/
theorem runSync_compileFailure_mock (parseBytes : List Nat → Option Json)
    (parseStr : String → Except String Json) (bytes : List Nat) (action : String)
    (wallclock : Nat) (err : String) (inst : Except RunnerError Unit)
    (ec : Except RunnerError String) (measured : Nat) :
    runSync parseBytes parseStr bytes action wallclock
        { compile := .error err, instantiate := inst, execCall := ec,
          measuredNanos := measured } =
      specMockFallback parseBytes bytes action err := by
  unfold runSync tryMockJson specMockFallback
  cases hp : parseBytes bytes with
  | none => rfl
  | some root =>
      cases root with
      | null => rfl
      | bool b => rfl
      | num n d => rfl
      | str s => rfl
      | arr xs => rfl
      | obj fields =>
          simp only [Json.get]
          cases hflag : fields.lookup "_mock_mcp_exec" with
          | none => rfl
          | some flag =>
              cases flag with
              | null => rfl
              | num n d => rfl
              | str s => rfl
              | arr xs => rfl
              | obj fs2 => rfl
              | bool b =>
                  cases b with
                  | false => rfl
                  | true =>
                      simp only [Json.asBool, Option.bind, Option.getD, if_true]
                      cases hresp : fields.lookup "responses" with
                      | none => rfl
                      | some resp =>
                          cases resp with
                          | null => rfl
                          | bool b2 => rfl
                          | num n d => rfl
                          | str s => rfl
                          | arr xs => rfl
                          | obj responses =>
                              cases hlook : responses.lookup action with
                              | none => simp [Json.asObject, hlook]
                              | some value => simp [Json.asObject, hlook]

/-- Claim C4: when the guest exec call returns but its measured duration
exceeds the wallclock timeout, run_sync discards the guest result and returns
Timeout carrying the measured duration; it never returns the decoded value. -/
theorem runSync_innerWallclock_timeout (parseBytes : List Nat → Option Json)
    (parseStr : String → Except String Json) (bytes : List Nat) (action : String)
    (wallclock : Nat) (raw : String) (measured : Nat)
    (hover : measured > wallclock) :
    runSync parseBytes parseStr bytes action wallclock
        { compile := .ok (), instantiate := .ok (), execCall := .ok raw,
          measuredNanos := measured } =
      .error (.timeout measured) := by
  unfold runSync
  simp [hover]

/-- Witness for runSync_innerWallclock_timeout at a concrete input. -/
theorem runSync_innerWallclock_timeout_witness :
    runSync (fun _ => none) (fun _ => .error "e") [] "a" 5
        { compile := .ok (), instantiate := .ok (), execCall := .ok "x",
          measuredNanos := 10 } =
      .error (.timeout 10) :=
  runSync_innerWallclock_timeout (fun _ => none) (fun _ => .error "e") [] "a" 5 "x" 10
    (by decide)

/-- A guest-visible host return: host capabilities never trap, every failure
mode is carried inside the ok payload (wasmtime::Result in the source). -/
inductive HostReturn (α : Type) where
  | ok (value : α) : HostReturn α
  | trap (msg : String) : HostReturn α
deriving DecidableEq

/-- An HTTP response as the reqwest client reports it: status code and the
body-collection outcome. -/
structure HttpResponse where
  status : Nat
  bodyBytes : Except String (List Nat)

/-- The pieces of StoreState::http_request supplied by the reqwest crate:
building the blocking client, and sending a request (method, url, parsed
headers, optional body). -/
structure HttpEnv where
  clientBuild : Except String Unit
  headerNameValid : String → Bool
  headerValueValid : String → Bool
  send : String → String → List (String × String) → Option (List Nat) →
    Except String HttpResponse

/-- A valid HTTP method byte per the http crate (RFC 7230 token characters),
used by Method::from_bytes. -/
def isMethodByte (c : Nat) : Bool :=
  (48 ≤ c && c ≤ 57) || (65 ≤ c && c ≤ 90) || (97 ≤ c && c ≤ 122) ||
    [33, 35, 36, 37, 38, 39, 42, 43, 45, 46, 94, 95, 96, 124, 126].contains c

/-- Method::from_bytes validity: nonempty and all token bytes. -/
def isValidMethod (m : String) : Bool :=
  !m.data.isEmpty && m.data.all (fun ch => isMethodByte ch.toNat)

/-- str::split_once on a character: split at the first occurrence. -/
def splitOnceChar (s : String) (c : Char) : Option (String × String) :=
  match s.data.findIdx? (fun ch => ch = c) with
  | none => none
  | some i => some (⟨s.data.take i⟩, ⟨s.data.drop (i + 1)⟩)

/-- apply_headers from crates/mcp-exec/src/runner.rs: each header splits on
the first colon, both sides trimmed; name and value validity come from the
http crate (oracle predicates). -/
def applyHeaders (nameValid valueValid : String → Bool) :
    List String → Except String (List (String × String))
  | [] => .ok []
  | header :: rest =>
      match splitOnceChar header ':' with
      | none => .error ("invalid-header:" ++ header)
      | some (name, value) =>
          let trimmedName := name.trim
          if !nameValid trimmedName then
            .error ("invalid-header-name:" ++ trimmedName)
          else
            let trimmedValue := value.trim
            if !valueValid trimmedValue then
              .error ("invalid-header-value:" ++ header)
            else
              match applyHeaders nameValid valueValid rest with
              | .ok hs => .ok ((trimmedName, trimmedValue) :: hs)
              | .error e => .error e

/-- StoreState::http_request from crates/mcp-exec/src/runner.rs.  Returns the
host return value together with the number of network sends performed.  The
http_enabled gate comes first; then the lazy client build, method parse,
header parsing, the send, the 2xx status check, and body collection. -/
def httpRequest (env : HttpEnv) (httpEnabled : Bool) (method url : String)
    (headers : List String) (body : Option (List Nat)) :
    HostReturn (Except String (List Nat)) × Nat :=
  if httpEnabled = false then (.ok (.error "http-disabled"), 0)
  else
    match env.clientBuild with
    | .error e => (.ok (.error ("http-client: " ++ e)), 0)
    | .ok _ =>
        if isValidMethod method = false then (.ok (.error "invalid-method"), 0)
        else
          match applyHeaders env.headerNameValid env.headerValueValid headers with
          | .error e => (.ok (.error e), 0)
          | .ok parsedHeaders =>
              match env.send method url parsedHeaders body with
              | .error e => (.ok (.error ("request: " ++ e)), 1)
              | .ok response =>
                  if !(200 ≤ response.status && response.status < 300) then
                    (.ok (.error ("status-" ++ toString response.status)), 1)
                  else
                    match response.bodyBytes with
                    | .ok bs => (.ok (.ok bs), 1)
                    | .error e => (.ok (.error ("body: " ++ e)), 1)

/-- Claim C5: with http_enabled = false, every http_request call - any method,
url, header list, optional body, and any state of the external client - yields
the error value "http-disabled" inside a normal (non-trapping) host return,
and performs no network send. -/
theorem httpRequest_disabled (env : HttpEnv) (method url : String)
    (headers : List String) (body : Option (List Nat)) :
    httpRequest env false method url headers body =
      (.ok (.error "http-disabled"), 0) := by
  rfl

/-- is_transient_error from greentic-mcp/src/lib.rs: transient iff a Runner
error whose source is Timeout, or a Tool error whose code starts with
"transient.". -/
def isTransientError : ExecError → Bool
  | .runner _ source =>
      match source with
      | .timeout _ => true
      | _ => false
  | .tool _ _ code _ => code.startsWith "transient."
  | _ => false

/-- The retry loop of exec_with_retries_with from greentic-mcp/src/lib.rs,
over the pipeline as a function from the (1-based) attempt number to its
outcome (the source threads the attempt to the pipeline through
tenant.attempt = attempt - 1).  Returns the final outcome together with the
number of pipeline invocations performed.  On an error, the loop retries
exactly when another attempt remains and the error is transient; the backoff
sleep does not affect the returned value. -/
def retryGo (f : Nat → Except ExecError Json) (maxAttempts : Nat) (attempt : Nat) :
    Except ExecError Json × Nat :=
  match f attempt with
  | .ok value => (.ok value, 1)
  | .error err =>
      if h : attempt < maxAttempts ∧ isTransientError err = true then
        let rest := retryGo f maxAttempts (attempt + 1)
        (rest.1, rest.2 + 1)
      else
        (.error err, 1)
termination_by maxAttempts - attempt
decreasing_by omega

/-- exec_with_retries_with from greentic-mcp/src/lib.rs:
max_attempts = max(config.runtime.max_attempts, 1), attempts numbered from 1. -/
def execWithRetriesWith (f : Nat → Except ExecError Json) (cfgMaxAttempts : Nat) :
    Except ExecError Json × Nat :=
  retryGo f (max cfgMaxAttempts 1) 1

/-- Claim C6: an ExecError is classified transient iff it is a Runner error
whose source is Timeout or a Tool error whose code starts with "transient.";
and any non-transient first failure is returned to the caller immediately,
after exactly one pipeline invocation. -/
theorem isTransientError_spec :
    (∀ e : ExecError,
      isTransientError e = true ↔
        ((∃ c d, e = .runner c (.timeout d)) ∨
          (∃ c a code p, e = .tool c a code p ∧ code.startsWith "transient." = true))) ∧
    (∀ (f : Nat → Except ExecError Json) (m : Nat) (e : ExecError),
      f 1 = .error e → isTransientError e = false →
        execWithRetriesWith f m = (.error e, 1)) := by
  constructor
  · intro e
    cases e with
    | resolve c s => simp [isTransientError]
    | verification c s => simp [isTransientError]
    | runner c s =>
        cases s with
        | timeout d => simp [isTransientError]
        | wasmtime m => simp [isTransientError]
        | serde m => simp [isTransientError]
        | notImplemented => simp [isTransientError]
        | internal m => simp [isTransientError]
        | actionNotFound a => simp [isTransientError]
    | tool c a code p =>
        simp only [isTransientError]
        constructor
        · intro h
          exact Or.inr ⟨c, a, code, p, rfl, h⟩
        · intro h
          rcases h with ⟨c1, d1, heq⟩ | ⟨c1, a1, code1, p1, heq, hs⟩
          · exact absurd heq (by simp)
          · cases heq
            exact hs
  · intro f m e hf ht
    unfold execWithRetriesWith
    rw [retryGo, hf]
    simp [ht]

/-- Witness for isTransientError_spec at concrete inputs: the first conjunct
at a Runner Timeout error, the second at a pipeline whose first attempt fails
with a (non-transient) resolve error. -/
theorem isTransientError_spec_witness :
    (isTransientError (.runner "c" (.timeout 7)) = true ↔
      ((∃ c d, (ExecError.runner "c" (.timeout 7)) = .runner c (.timeout d)) ∨
        (∃ c a code p, (ExecError.runner "c" (.timeout 7)) = .tool c a code p ∧
          code.startsWith "transient." = true))) ∧
    execWithRetriesWith (fun _ => .error (.resolve "c" .notFound)) 3 =
      (.error (.resolve "c" .notFound), 1) :=
  ⟨isTransientError_spec.1 (.runner "c" (.timeout 7)),
    isTransientError_spec.2 (fun _ => .error (.resolve "c" .notFound)) 3
      (.resolve "c" .notFound) rfl rfl⟩

theorem retryGo_timeoutThenOk_ok (f : Nat → Except ExecError Json) (k : Nat)
    (c : String) (d : Nat) (v : Json)
    (hfail : ∀ i, 1 ≤ i → i < k → f i = .error (.runner c (.timeout d)))
    (hok : f k = .ok v) :
    ∀ n a, k - a = n → 1 ≤ a → a ≤ k → ∀ m, k ≤ m →
      retryGo f m a = (.ok v, k + 1 - a) := by
  intro n
  induction n with
  | zero =>
      intro a hka h1 hak m hkm
      have hak' : a = k := by omega
      rw [hak', retryGo, hok]
      have h2 : k + 1 - k = 1 := by omega
      rw [h2]
  | succ n ih =>
      intro a hka h1 hak m hkm
      have hlt : a < k := by omega
      rw [retryGo, hfail a h1 hlt]
      have hcond : a < m ∧ isTransientError (.runner c (.timeout d)) = true :=
        ⟨by omega, rfl⟩
      dsimp only
      rw [dif_pos hcond]
      rw [ih (a + 1) (by omega) (by omega) (by omega) m hkm]
      dsimp only
      congr 1
      omega

theorem retryGo_timeoutThenOk_exhausted (f : Nat → Except ExecError Json) (k : Nat)
    (c : String) (d : Nat)
    (hfail : ∀ i, 1 ≤ i → i < k → f i = .error (.runner c (.timeout d))) :
    ∀ n a m, m - a = n → 1 ≤ a → a ≤ m → m < k →
      retryGo f m a = (.error (.runner c (.timeout d)), m + 1 - a) := by
  intro n
  induction n with
  | zero =>
      intro a m ham h1 ham2 hmk
      have ham' : a = m := by omega
      subst ham'
      rw [retryGo, hfail a h1 (by omega)]
      dsimp only
      rw [dif_neg (fun hc => absurd hc.1 (lt_irrefl a))]
      congr 1
      omega
  | succ n ih =>
      intro a m ham h1 ham2 hmk
      have hlt : a < m := by omega
      rw [retryGo, hfail a h1 (by omega)]
      have hcond : a < m ∧ isTransientError (.runner c (.timeout d)) = true :=
        ⟨hlt, rfl⟩
      dsimp only
      rw [dif_pos hcond]
      rw [ih (a + 1) m (by omega) (by omega) (by omega) hmk]
      dsimp only
      congr 1
      omega

/-- Claim C7: for k at least 1 and a pipeline that fails with a Runner Timeout
error on its first k - 1 invocations and succeeds with v on the k-th,
exec_with_retries returns the successful value iff
max(config.runtime.max_attempts, 1) is at least k (and then after exactly k
invocations); otherwise it returns the last Timeout error after exactly
max(config.runtime.max_attempts, 1) invocations. -/
theorem execWithRetries_timeoutThenOk (f : Nat → Except ExecError Json)
    (k cfgMaxAttempts : Nat) (c : String) (d : Nat) (v : Json)
    (hk : 1 ≤ k)
    (hfail : ∀ i, 1 ≤ i → i < k → f i = .error (.runner c (.timeout d)))
    (hok : f k = .ok v) :
    ((execWithRetriesWith f cfgMaxAttempts).1 = .ok v ↔ k ≤ max cfgMaxAttempts 1) ∧
    (k ≤ max cfgMaxAttempts 1 →
      execWithRetriesWith f cfgMaxAttempts = (.ok v, k)) ∧
    (max cfgMaxAttempts 1 < k →
      execWithRetriesWith f cfgMaxAttempts =
        (.error (.runner c (.timeout d)), max cfgMaxAttempts 1)) := by
  have hm1 : 1 ≤ max cfgMaxAttempts 1 := by omega
  by_cases hcase : k ≤ max cfgMaxAttempts 1
  · have hrun : execWithRetriesWith f cfgMaxAttempts = (.ok v, k) := by
      unfold execWithRetriesWith
      have := retryGo_timeoutThenOk_ok f k c d v hfail hok (k - 1) 1 (by omega)
        (by omega) hk (max cfgMaxAttempts 1) hcase
      rw [this]
      simp
    refine ⟨?_, fun _ => hrun, fun hcontra => absurd hcontra (by omega)⟩
    rw [hrun]
    simpa using hcase
  · have hlt : max cfgMaxAttempts 1 < k := by omega
    have hrun : execWithRetriesWith f cfgMaxAttempts =
        (.error (.runner c (.timeout d)), max cfgMaxAttempts 1) := by
      unfold execWithRetriesWith
      have := retryGo_timeoutThenOk_exhausted f k c d hfail
        (max cfgMaxAttempts 1 - 1) 1 (max cfgMaxAttempts 1) (by omega) (by omega)
        hm1 hlt
      rw [this]
      simp
    refine ⟨?_, fun hcontra => absurd hcontra (by omega), fun _ => hrun⟩
    rw [hrun]
    constructor
    · intro h
      exact absurd h (by simp)
    · intro h
      omega

/-- Witness for execWithRetries_timeoutThenOk at a concrete input: the
pipeline times out on attempts 1 and 2 and succeeds on attempt 3, with
max_attempts = 5. -/
theorem execWithRetries_timeoutThenOk_witness :
    (((execWithRetriesWith
        (fun i => if i < 3 then .error (.runner "c" (.timeout 7)) else .ok (.bool true))
        5).1 = .ok (.bool true)) ↔ 3 ≤ max 5 1) ∧
    (3 ≤ max 5 1 →
      execWithRetriesWith
          (fun i => if i < 3 then .error (.runner "c" (.timeout 7)) else .ok (.bool true))
          5 = (.ok (.bool true), 3)) ∧
    (max 5 1 < 3 →
      execWithRetriesWith
          (fun i => if i < 3 then .error (.runner "c" (.timeout 7)) else .ok (.bool true))
          5 = (.error (.runner "c" (.timeout 7)), max 5 1)) :=
  execWithRetries_timeoutThenOk
    (fun i => if i < 3 then .error (.runner "c" (.timeout 7)) else .ok (.bool true))
    3 5 "c" 7 (.bool true) (by omega)
    (fun i _ hi => by simp [hi])
    (by simp)

/-- backoff from greentic-mcp/src/retry.rs, with the random jitter draw U as
an explicit parameter (the source draws U uniformly from [0.5, 1.5]) and the
f64 arithmetic modelled as exact rational arithmetic; `round` is
round-half-up, which agrees with f64::round on these nonnegative values.
Input is the base duration in nanoseconds; the result is the returned
duration in whole milliseconds.  Steps follow the source: multiplier =
1 <<< min(attempt, 16) (the checked_shl never fails since the shift is at
most 16); millis = max(base.as_millis(), 1); scaled = saturating u128
multiply; max = min(scaled, u64::MAX); jittered = clamp(round(max * U), 1,
u64::MAX as f64), then cast to u64 (which saturates at u64::MAX). -/
def backoff (baseNanos attempt : Nat) (U : ℚ) : Nat :=
  let multiplier := 2 ^ min attempt 16
  let millis := max (baseNanos / 1000000) 1
  let scaled := min (millis * multiplier) (2 ^ 128 - 1)
  let maxv := min scaled (2 ^ 64 - 1)
  let jittered : ℤ := max (round ((maxv : ℚ) * U)) 1
  min jittered.toNat (2 ^ 64 - 1)

/-- Modelled from the claim's words, for comparison with `backoff`: the
claimed return value clamp(base * 2^min(attempt,16) * U, 1 ms, u64::MAX ms),
as an exact rational number of milliseconds (base enters in milliseconds). -/
def claimBackoffFormula (baseNanos attempt : Nat) (U : ℚ) : ℚ :=
  min (max ((baseNanos : ℚ) / 1000000 * 2 ^ min attempt 16 * U) 1) (2 ^ 64 - 1)

/-- Claim C9, counterexample: the claim says the returned duration equals
clamp(base * 2^min(attempt,16) * U, 1 ms, u64::MAX ms) for some U in
[0.5, 1.5].  With base = 0 and attempt = 16 the claimed value is 1 ms for
every such U (the product is 0), but the code floors the base milliseconds at
1 BEFORE scaling, so with jitter draw U = 1 it returns 65536 ms. -/
theorem backoff_claim_false :
    ¬ ∃ U : ℚ, 1 / 2 ≤ U ∧ U ≤ 3 / 2 ∧
      (backoff 0 16 1 : ℚ) = claimBackoffFormula 0 16 U := by
  rintro ⟨U, hU1, hU2, hEq⟩
  have h1 : backoff 0 16 1 = 65536 := by
    unfold backoff
    norm_num [round_eq]
    decide
  have h2 : claimBackoffFormula 0 16 U = 1 := by
    unfold claimBackoffFormula
    norm_num
  rw [h1, h2] at hEq
  norm_num at hEq

/-- The amended formula: clamp(round(max(base_ms, 1) * 2^min(attempt,16) * U),
1 ms, u64::MAX ms), with base_ms the base duration in whole (truncated)
milliseconds and the scaled base capped at u64::MAX before the jitter
multiply, exactly as the code computes it. -/
def amendedBackoffFormula (baseNanos attempt : Nat) (U : ℚ) : Nat :=
  let B : Nat := min (max (baseNanos / 1000000) 1 * 2 ^ min attempt 16) (2 ^ 64 - 1)
  min (max (round ((B : ℚ) * U)) 1).toNat (2 ^ 64 - 1)

theorem clamp_ge_one (j : ℤ) (B : Nat) (hB : 1 ≤ B) : 1 ≤ min (max j 1).toNat B := by
  have h1 : (1 : ℤ) ≤ max j 1 := le_max_right _ _
  omega

/-- Claim C9 (amended): for every base duration, attempt number, and jitter
draw U in [0.5, 1.5], backoff(base, attempt) returns
clamp(round(max(base_ms, 1) * 2^min(attempt,16) * U), 1 ms, u64::MAX ms) -
the code floors the base milliseconds at 1 before scaling, which the claim's
formula omits - and in particular the result is always at least 1 ms and at
most u64::MAX ms. -/
theorem backoff_amended (baseNanos attempt : Nat) (U : ℚ)
    (hU1 : 1 / 2 ≤ U) (hU2 : U ≤ 3 / 2) :
    backoff baseNanos attempt U = amendedBackoffFormula baseNanos attempt U ∧
    1 ≤ backoff baseNanos attempt U ∧
    backoff baseNanos attempt U ≤ 2 ^ 64 - 1 := by
  have hsat : min (min (max (baseNanos / 1000000) 1 * 2 ^ min attempt 16)
      (2 ^ 128 - 1)) (2 ^ 64 - 1) =
      min (max (baseNanos / 1000000) 1 * 2 ^ min attempt 16) (2 ^ 64 - 1) := by
    have h : (2 : Nat) ^ 64 - 1 ≤ 2 ^ 128 - 1 := by norm_num
    omega
  refine ⟨?_, ?_, ?_⟩
  · unfold backoff amendedBackoffFormula
    dsimp only
    rw [hsat]
  · unfold backoff
    dsimp only
    exact clamp_ge_one _ _ (by norm_num)
  · unfold backoff
    dsimp only
    exact min_le_right _ _

/-- Witness for backoff_amended at a concrete input. -/
theorem backoff_amended_witness :
    backoff 0 0 1 = amendedBackoffFormula 0 0 1 ∧
    1 ≤ backoff 0 0 1 ∧
    backoff 0 0 1 ≤ 2 ^ 64 - 1 :=
  backoff_amended 0 0 1 (by norm_num) (by norm_num)
